import Mathlib

/-!
Verification development for the docufind index-maintenance and search
orchestration engine (Rust, `src-tauri/src`).  The Rust modules are shallowly
embedded: strings are modelled as `List Char` (`Str`), `f32` relevance scores
as natural numbers scaled by ten (every score produced by the embedded code is
an integer multiple of 0.1 in a range where IEEE rounding cannot reorder two
distinct values), timestamps as integers, and the external collaborators
(SQLite FTS5 row stream, Tantivy outcome, content extraction, file-system
metadata) as explicit inputs.  Byte offsets coincide with character offsets on
the ASCII inputs exercised here, so offsets are character offsets.
-/

namespace Docufind

/-- Strings are modelled as lists of characters. -/
abbrev Str := List Char

/-- Shorthand turning a Lean string literal into the model representation. -/
def str (s : String) : Str := s.data

/-! ## Basic string primitives (models of Rust `str` methods) -/

/-- Model of Rust `char::to_lowercase` restricted to ASCII (Lean's
`Char.toLower`); the embedded code only lowercases ASCII inputs. -/
def lowerChar (c : Char) : Char := c.toLower

/-- Model of Rust `str::to_lowercase`, applied character-wise. -/
def toLower (s : Str) : Str := s.map lowerChar

/-- Whitespace recognised by `split_whitespace`/`trim` on the inputs used. -/
def isWS (c : Char) : Bool := c = ' ' || c = '\t' || c = '\n' || c = '\r'

/-- Model of Rust `str::trim`. -/
def trimStr (s : Str) : Str :=
  ((s.dropWhile isWS).reverse.dropWhile isWS).reverse

/-- Model of Rust `char::is_ascii`. -/
def isAsciiChar (c : Char) : Bool := c.toNat ≤ 0x7F

/-- Model of Rust `str::is_ascii`. -/
def strIsAscii (s : Str) : Bool := s.all isAsciiChar

/-- Model of Rust `eq_ignore_ascii_case` on strings. -/
def eqIgnoreAsciiCase : Str → Str → Bool
  | [], [] => true
  | a :: as', b :: bs => decide (a.toLower = b.toLower) && eqIgnoreAsciiCase as' bs
  | _, _ => false

/-- Model of Rust `str::contains` (substring occurrence). -/
def containsStr : Str → Str → Bool
  | [], pat => pat.isEmpty
  | hay@(_ :: rest), pat => pat.isPrefixOf hay || containsStr rest pat

/-- `starts_with` on a single character. -/
def startsWithChar (s : Str) (c : Char) : Bool :=
  match s with
  | [] => false
  | x :: _ => decide (x = c)

/-- `ends_with` on a single character. -/
def endsWithChar (s : Str) (c : Char) : Bool :=
  match s.getLast? with
  | some x => decide (x = c)
  | none => false

/-- Accumulator pass for `split_whitespace`; `cur` is the current token in
reverse order. -/
def splitWSAux : Str → Str → List Str
  | [], cur => if cur = [] then [] else [cur.reverse]
  | c :: rest, cur =>
    if isWS c then
      if cur = [] then splitWSAux rest [] else cur.reverse :: splitWSAux rest []
    else splitWSAux rest (c :: cur)

/-- Model of Rust `str::split_whitespace` (no empty tokens). -/
def splitWS (s : Str) : List Str := splitWSAux s []

/-! ## Query parser (`search/query_parser.rs`) -/

/-- `ParsedQuery` from `query_parser.rs`. -/
structure ParsedQuery where
  required_terms : List Str
  optional_terms : List Str
  excluded_terms : List Str
  exact_phrases : List Str
deriving DecidableEq, Repr

/-- One pass of the phrase regex `"([^"]+)"` together with
`replace_all(_, " ")`: returns the captured phrases (lower-cased, in order)
and the text with every match replaced by a single space.  The second
argument is `some pend` (content so far, reversed) while scanning after an
as-yet-unmatched opening quote. -/
def phrasePass : Str → Option Str → List Str × Str
  | [], none => ([], [])
  | [], some pend => ([], '"' :: pend.reverse)
  | c :: rest, none =>
    if c = '"' then phrasePass rest (some [])
    else
      let (ps, txt) := phrasePass rest none
      (ps, c :: txt)
  | c :: rest, some pend =>
    if c = '"' then
      if pend = [] then
        -- `[^"]+` needs at least one character: the first quote is literal
        -- and the second quote may open a phrase of its own.
        let (ps, txt) := phrasePass rest (some [])
        (ps, '"' :: txt)
      else
        let (ps, txt) := phrasePass rest none
        (toLower pend.reverse :: ps, ' ' :: txt)
    else phrasePass rest (some (c :: pend))

/-- Extract quoted phrases and the remaining text. -/
def extractPhrases (s : Str) : List Str × Str := phrasePass s none

/-- The `AND` keyword token. -/
def andTok : Str := str "AND"

/-- The `OR` keyword token. -/
def orTok : Str := str "OR"

/-- The `NOT` keyword token. -/
def notTok : Str := str "NOT"

/-- Accumulator of the token loop in `parse_simple_query`. -/
structure ParseState where
  required : List Str
  optional : List Str
  excluded : List Str
  hasAnd : Bool
deriving DecidableEq, Repr

def pushExcluded (st : ParseState) (t : Str) : ParseState :=
  if t = [] then st else { st with excluded := st.excluded ++ [toLower t] }

def pushRequired (st : ParseState) (t : Str) : ParseState :=
  if t = [] then st else { st with required := st.required ++ [toLower t] }

def pushOptional (st : ParseState) (t : Str) : ParseState :=
  { st with optional := st.optional ++ [toLower t] }

/-- The `while i < parts.len()` token loop of `parse_simple_query`. -/
def parseLoop : List Str → ParseState → ParseState
  | [], st => st
  | t :: rest, st =>
    if eqIgnoreAsciiCase t andTok then parseLoop rest { st with hasAnd := true }
    else if eqIgnoreAsciiCase t orTok then parseLoop rest st
    else if eqIgnoreAsciiCase t notTok || startsWithChar t '-' then
      if startsWithChar t '-' then parseLoop rest (pushExcluded st t.tail)
      else
        match rest with
        | [] => st
        | r :: rest' => parseLoop rest' (pushExcluded st r)
    else if startsWithChar t '+' then parseLoop rest (pushRequired st t.tail)
    else parseLoop rest (pushOptional st t)

/-- `parse_simple_query` from `query_parser.rs`. -/
def parse_simple_query (query : Str) : ParsedQuery :=
  let (phrases, remaining) := extractPhrases query
  let parts := splitWS remaining
  let st := parseLoop parts ⟨[], [], [], false⟩
  let required := if st.hasAnd then st.required ++ st.optional else st.required
  let optional : List Str := if st.hasAnd then [] else st.optional
  { required_terms := required ++ phrases
    optional_terms := optional
    excluded_terms := st.excluded
    exact_phrases := phrases }

/-- `matches_parsed_query` from `query_parser.rs`. -/
def matches_parsed_query (text : Str) (q : ParsedQuery) : Bool :=
  if q.excluded_terms.any (fun t => containsStr text t) then false
  else if q.exact_phrases.any (fun p => !containsStr text p) then false
  else if q.required_terms.any (fun t => !containsStr text t) then false
  else if q.required_terms.isEmpty && !q.optional_terms.isEmpty then
    q.optional_terms.any (fun t => containsStr text t)
  else true

/-! ## Data model (`models.rs`) -/

/-- `FileData` from `models.rs`; `DateTime<Utc>` is a Unix timestamp. -/
structure FileData where
  path : Str
  name : Str
  size : Nat
  last_modified : Int
  file_type : Str
  content : Str
deriving DecidableEq, Repr

/-- `Match` from `models.rs` (offsets are character offsets). -/
structure Match where
  text : Str
  index : Nat
  context : Str
deriving DecidableEq, Repr

/-- `SearchResult` from `models.rs`; the `f32` score is scaled by ten
(direct-scan scores are `1.0`/`2.0` plus `0.1` per recorded match, FTS5
scores are `1.0`, and their IEEE order agrees with the scaled-integer
order). -/
structure SearchResult where
  file : FileData
  matches_ : List Match   -- Rust field `matches` (`matches` is reserved in Lean)
  score : Nat
deriving DecidableEq, Repr

/-- `SearchFilters` from `models.rs`. -/
structure SearchFilters where
  file_types : Option (List Str) := none
  date_from : Option Int := none
  date_to : Option Int := none
  min_size : Option Nat := none
  max_size : Option Nat := none
  folder_path : Option Str := none
  file_path : Option Str := none
  max_results : Option Nat := none
  offset : Option Nat := none
deriving DecidableEq, Repr

/-! ## Script classifier (`direct_search.rs::is_caseless_script`) -/

/-- The Arabic/Hebrew/CJK/Japanese code-point ranges tested by
`is_caseless_script`. -/
def inCaselessRanges (c : Char) : Bool :=
  let code := c.toNat
  (0x0600 ≤ code && code ≤ 0x06FF) ||
  (0x0750 ≤ code && code ≤ 0x077F) ||
  (0xFB50 ≤ code && code ≤ 0xFDFF) ||
  (0xFE70 ≤ code && code ≤ 0xFEFF) ||
  (0x0590 ≤ code && code ≤ 0x05FF) ||
  (0x4E00 ≤ code && code ≤ 0x9FFF) ||
  (0x3040 ≤ code && code ≤ 0x30FF)

/-- Model of Rust `char::is_alphabetic`: ASCII letters plus the caseless
ranges above (only these scripts influence the sampled letters here). -/
def isAlphabeticModel (c : Char) : Bool := c.isAlpha || inCaselessRanges c

/-- `is_caseless_script` from `direct_search.rs`. -/
def is_caseless_script (s : Str) : Bool :=
  (((s.take 20).filter isAlphabeticModel).take 5).all inCaselessRanges

/-! ## Direct content search (`direct_search.rs`) -/

/-- Window scan of `contains_ignore_case`'s ASCII fast path
(`windows(needle.len()).any(eq_ignore_ascii_case)`). -/
def windowScan (needle : Str) : Str → Bool
  | [] => false
  | c :: rest =>
    eqIgnoreAsciiCase ((c :: rest).take needle.length) needle || windowScan needle rest

/-- `contains_ignore_case` from `direct_search.rs` (needle already
lower-cased by the caller). -/
def contains_ignore_case (hay needle : Str) : Bool :=
  if needle = [] then true
  else if strIsAscii hay then windowScan needle hay
  else containsStr (toLower hay) needle

/-- Model of Rust `str::match_indices(pat).map(|(i, _)| i)` (leftmost,
non-overlapping); `skip` counts positions still covered by the previous
match. -/
def matchIndicesAux (pat : Str) : Str → Nat → Nat → List Nat
  | [], _, _ => []
  | _ :: rest, i, (skip + 1) => matchIndicesAux pat rest (i + 1) skip
  | s@(_ :: rest), i, 0 =>
    if pat.isPrefixOf s then i :: matchIndicesAux pat rest (i + 1) (pat.length - 1)
    else matchIndicesAux pat rest (i + 1) 0

/-- Occurrence offsets of `pat` in `s`. -/
def matchIndices (s pat : Str) : List Nat := matchIndicesAux pat s 0 0

/-- `get_context_around_match_fast` from `direct_search.rs`; on the character
 model the ASCII and non-ASCII branches coincide (`start` uses
`saturating_sub`, which is `Nat` subtraction). -/
def get_context_around_match_fast (content : Str) (matchIdx matchLen contextChars : Nat) :
    Str :=
  let start := matchIdx - contextChars
  let stop := min (matchIdx + matchLen + contextChars) content.length
  (content.drop start).take (stop - start)

/-- `find_matches_fast` from `direct_search.rs`. -/
def find_matches_fast (contentLower nameLower originalName queryLower : Str) :
    List Match :=
  let contentMatches :=
    ((matchIndices contentLower queryLower).take 5).map fun i =>
      { text := queryLower
        index := i
        context := get_context_around_match_fast contentLower i queryLower.length 50 }
  if contentMatches.isEmpty then
    if containsStr nameLower queryLower then
      [{ text := queryLower, index := 0, context := str "Filename: " ++ originalName }]
    else []
  else contentMatches

/-- The per-file closure of `search_direct_content`'s `par_iter().filter_map`
(the early-termination counter lives in `searchLoop`). -/
def processFile (queryIsCaseless : Bool) (queryNormalized : Str) (pq : ParsedQuery)
    (file : FileData) : Option SearchResult :=
  let contentHasMatch :=
    if queryIsCaseless then containsStr file.content queryNormalized
    else contains_ignore_case file.content queryNormalized
  let nameHasMatch :=
    if queryIsCaseless then containsStr file.name queryNormalized
    else contains_ignore_case file.name queryNormalized
  if !contentHasMatch && !nameHasMatch then none
  else
    let contentNormalized := if queryIsCaseless then file.content else toLower file.content
    let nameNormalized := if queryIsCaseless then file.name else toLower file.name
    if (!pq.required_terms.isEmpty || !pq.optional_terms.isEmpty ||
        !pq.excluded_terms.isEmpty) &&
       !matches_parsed_query (nameNormalized ++ ' ' :: contentNormalized) pq then none
    else
      let highlightTerm :=
        (pq.required_terms.head?.or pq.optional_terms.head?).getD queryNormalized
      let ms := find_matches_fast contentNormalized nameNormalized file.name highlightTerm
      if ms.isEmpty then none
      else
        some { file := file
               matches_ := ms
               score := (if nameHasMatch then 20 else 10) + ms.length }

/-- Sequential model of the parallel fan-out with its atomic
early-termination counter: once `maxres` results were found every remaining
file is skipped. -/
def searchLoop (queryIsCaseless : Bool) (queryNormalized : Str) (pq : ParsedQuery)
    (maxres : Nat) : List FileData → Nat → List SearchResult
  | [], _ => []
  | f :: fs, count =>
    if maxres ≤ count then []
    else
      match processFile queryIsCaseless queryNormalized pq f with
      | none => searchLoop queryIsCaseless queryNormalized pq maxres fs count
      | some r => r :: searchLoop queryIsCaseless queryNormalized pq maxres fs (count + 1)

/-- Stable descending insertion: `r` goes in front of the first strictly
smaller score.  Any stable sort realises Rust's stable
`sort_by(|a, b| b.score.partial_cmp(&a.score))`. -/
def insertDesc (r : SearchResult) : List SearchResult → List SearchResult
  | [] => [r]
  | x :: xs => if x.score ≤ r.score then r :: x :: xs else x :: insertDesc r xs

/-- Stable sort by descending score (model of `results.sort_by(...)`). -/
def sortByScoreDesc : List SearchResult → List SearchResult
  | [] => []
  | x :: xs => insertDesc x (sortByScoreDesc xs)

/-- `search_direct_content` from `direct_search.rs` (it never returns `Err`). -/
def search_direct_content (query : Str) (files : List FileData)
    (maxResults : Option Nat) (filePathFilter : Option Str) : List SearchResult :=
  let maxres := maxResults.getD 100
  let queryIsCaseless := is_caseless_script query
  let queryNormalized := if queryIsCaseless then query else toLower query
  let pq := parse_simple_query queryNormalized
  let filesToSearch :=
    match filePathFilter with
    | some p => files.filter fun f => decide (f.path = p)
    | none => files
  let results := searchLoop queryIsCaseless queryNormalized pq maxres filesToSearch 0
  (sortByScoreDesc results).take maxres

/-! ## FTS5 search (`fts5_search.rs`) -/

/-- The excluded-folder test shared by `search_fts5` (line 86) and
`search_index` (lines 136–140): a raw `starts_with` against each excluded
folder path. -/
def excludedByFolders (excludedFolders : List Str) (p : Str) : Bool :=
  excludedFolders.any fun e => e.isPrefixOf p

/-- A row of the `files_fts` virtual table as selected by `search_fts5`. -/
structure FtsRow where
  path : Str
  name : Str
  file_type : Str
deriving DecidableEq, Repr

/-- `search_fts5` from `fts5_search.rs`.  `rows` is the `files_fts MATCH ?1`
row stream produced by the external FTS5 engine, in SQL order; the SQL
`AND path = ?2` filter and `LIMIT ?/OFFSET ?` are applied to it, and the
excluded-folder test runs per fetched row.  `now` models `Utc::now()`. -/
def search_fts5 (rows : List FtsRow) (query : Str) (maxResults offset : Nat)
    (filePathFilter : Option Str) (excludedFolders : List Str) (now : Int) :
    List SearchResult :=
  if trimStr query = [] then []
  else
    let matched : List FtsRow :=
      match filePathFilter with
      | some p => rows.filter fun r => decide (r.path = p)
      | none => rows
    let limited : List FtsRow := (matched.drop offset).take maxResults
    limited.filterMap fun row =>
      if !excludedFolders.isEmpty && excludedByFolders excludedFolders row.path then none
      else
        some { file := { path := row.path, name := row.name, size := 0,
                         last_modified := now, file_type := row.file_type,
                         content := [] }
               matches_ := [⟨query, 0, str "Match found for '" ++ query ++ str "'"⟩]
               score := 10 }

/-! ## Result filters (`filters.rs`) -/

/-- `apply_filters` from `filters.rs`. -/
def apply_filters (results : List SearchResult) (f : SearchFilters) :
    List SearchResult :=
  results.filter fun r =>
    (match f.file_types with
     | some ts => ts.isEmpty || ts.contains r.file.file_type
     | none => true) &&
    (match f.date_from with
     | some d => !decide (r.file.last_modified < d)
     | none => true) &&
    (match f.date_to with
     | some d => !decide (d < r.file.last_modified)
     | none => true) &&
    (match f.min_size with
     | some m => !decide (r.file.size < m)
     | none => true) &&
    (match f.max_size with
     | some m => !decide (m < r.file.size)
     | none => true) &&
    (match f.folder_path with
     | some p => p.isPrefixOf r.file.path
     | none => true)

/-! ## Search strategy coordinator (`commands/search.rs::search_index`) -/

/-- `MIN_TANTIVY_RESULTS`. -/
def MIN_TANTIVY_RESULTS : Nat := 5

/-- `DEFAULT_MAX_RESULTS`. -/
def DEFAULT_MAX_RESULTS : Nat := 100

/-- External collaborators and shared state visible to one `search_index`
call.  `fts5Available` is true when the data dir and `docufind.db` exist, the
read-only connection opens and the FTS5 query succeeds; `fts5Rows` is then
the engine's match stream.  `tantivy` is the outcome of
`search_with_tantivy` for this query.  `files` is the in-memory
DocumentTable and `excludedFolders` the excluded-folder set. -/
structure SearchEnv where
  fts5Available : Bool
  fts5Rows : List FtsRow
  tantivy : Except Str (List SearchResult)
  files : List FileData
  excludedFolders : List Str
  now : Int

/-- The supplement merge of `search_index` (lines 122–130): direct-scan
results are appended unless their path already occurs in the index-store
results. -/
def mergeSupplement (results directResults : List SearchResult) :
    List SearchResult :=
  if directResults.isEmpty then results
  else
    results ++ directResults.filter fun dr =>
      !(results.map fun r => r.file.path).contains dr.file.path

/-- Candidate production of `search_index` (lines 53–142): everything before
caller filters and pagination.  A Tantivy `Err` propagates via `?`. -/
def candidateResults (env : SearchEnv) (query : Str) (filePathFilter : Option Str)
    (maxResults offset : Nat) : Except Str (List SearchResult) :=
  if env.fts5Available then
    .ok (search_fts5 env.fts5Rows query (maxResults + offset) 0 filePathFilter
          env.excludedFolders env.now)
  else
    let hasNonAscii := query.any fun c => !isAsciiChar c
    let preExclusion : Except Str (List SearchResult) :=
      match filePathFilter with
      | some p => .ok (search_direct_content query env.files (some 1000) (some p))
      | none =>
        if hasNonAscii then
          .ok (search_direct_content query env.files (some (maxResults + offset)) none)
        else
          match env.tantivy with
          | .error e => .error e
          | .ok tantivyResults =>
            if tantivyResults.length < MIN_TANTIVY_RESULTS then
              .ok (mergeSupplement tantivyResults
                    (search_direct_content query env.files (some maxResults) none))
            else .ok tantivyResults
    match preExclusion with
    | .error e => .error e
    | .ok results =>
      if filePathFilter = none && !env.excludedFolders.isEmpty then
        .ok (results.filter fun r => !excludedByFolders env.excludedFolders r.file.path)
      else .ok results

/-- Pagination step of `search_index` (lines 149–153). -/
def paginate (results : List SearchResult) (offset maxResults : Nat) :
    List SearchResult :=
  (if 0 < offset then results.drop offset else results).take maxResults

/-- Caller filters step of `search_index` (lines 144–147). -/
def applyFiltersOpt (results : List SearchResult) (filters : Option SearchFilters) :
    List SearchResult :=
  match filters with
  | some f => apply_filters results f
  | none => results

def offsetOf (filters : Option SearchFilters) : Nat :=
  (filters.bind fun f => f.offset).getD 0

def maxResultsOf (filters : Option SearchFilters) : Nat :=
  (filters.bind fun f => f.max_results).getD DEFAULT_MAX_RESULTS

def filePathOf (filters : Option SearchFilters) : Option Str :=
  filters.bind fun f => f.file_path

/-- `search_index` from `commands/search.rs` as a function of its
collaborator environment (history logging is modelled separately by
`SearchHistory.add`). -/
def search_index (env : SearchEnv) (query : Str) (filters : Option SearchFilters) :
    Except Str (List SearchResult) :=
  if trimStr query = [] then .ok []
  else
    match candidateResults env query (filePathOf filters) (maxResultsOf filters)
        (offsetOf filters) with
    | .error e => .error e
    | .ok results =>
      .ok (paginate (applyFiltersOpt results filters) (offsetOf filters)
            (maxResultsOf filters))

/-! ## Extractor classification (`extractors/mod.rs`) -/

/-- `SUPPORTED_EXTENSIONS` (` = ALL_EXTENSIONS`). -/
def SUPPORTED_EXTENSIONS : List Str :=
  [str "doc", str "docx", str "pptx", str "xlsx", str "txt", str "md"]

/-- `is_supported_extension` from `extractors/mod.rs`. -/
def is_supported_extension (ext : Str) : Bool :=
  SUPPORTED_EXTENSIONS.contains (toLower ext)

/-- `get_file_type` from `extractors/mod.rs` (matching on the lower-cased
extension). -/
def get_file_type (ext : Str) : Option Str :=
  if toLower ext = str "doc" ∨ toLower ext = str "docx" then some (str "word")
  else if toLower ext = str "pptx" then some (str "powerpoint")
  else if toLower ext = str "xlsx" then some (str "excel")
  else if toLower ext = str "txt" ∨ toLower ext = str "md" then some (str "text")
  else none

/-! ## Change-detection scanner (`commands/scanning.rs::scan_folder`) -/

/-- One file met by `WalkDir`, together with the outcome of the external
collaborators for it: `ext` is `Path::extension()`, `size`/`mtime` the OS
metadata, and `extraction` the result of `extract_content`. -/
structure DiskEntry where
  path : Str
  fileName : Str
  ext : Option Str
  size : Nat
  mtime : Int
  extraction : Option Str
deriving DecidableEq, Repr

/-- The per-entry discovery test of `scan_folder` (lines 49–68): keep a file
unless it is a dotfile, a `~$` lock file, extension-less, or of an
unsupported extension. -/
def discoveryKeep (e : DiskEntry) : Bool :=
  !startsWithChar e.fileName '.' &&
  !(str "~$").isPrefixOf e.fileName &&
  (match e.ext with
   | some x => is_supported_extension (toLower x)
   | none => false)

/-- The discovery filter of `scan_folder`. -/
def discovered (disk : List DiskEntry) : List DiskEntry :=
  disk.filter discoveryKeep

/-- Lookup in the `path -> (size, last_modified.timestamp())` map built from
the DocumentTable (lines 36–44). -/
def lookupSizeMtime (index : List FileData) (p : Str) : Option (Nat × Int) :=
  (index.find? fun f => decide (f.path = p)).map fun f => (f.size, f.last_modified)

/-- The per-entry closure of `scan_folder`'s `par_iter().filter_map`
(lines 95–180); progress emission is a UI side effect with no result. -/
def processEntry (forceReindex : Bool) (index : List FileData) (e : DiskEntry) :
    Option FileData :=
  match e.ext with
  | none => none
  | some extRaw =>
    let ext := toLower extRaw
    match get_file_type ext with
    | none => none
    | some fileType =>
      if e.size = 0 then none
      else if !forceReindex && lookupSizeMtime index e.path = some (e.size, e.mtime)
      then none
      else
        some { path := e.path, name := e.fileName, size := e.size,
               last_modified := e.mtime, file_type := fileType,
               content := e.extraction.getD [] }

/-- `new_files`: the batch of newly indexed-or-updated documents. -/
def scanNewFiles (forceReindex : Bool) (index : List FileData)
    (disk : List DiskEntry) : List FileData :=
  (discovered disk).filterMap (processEntry forceReindex index)

/-- The DocumentTable after the merge step of `scan_folder` (lines 222–232). -/
def scanMergedIndex (index newFiles : List FileData) : List FileData :=
  let newPaths := newFiles.map fun f => f.path
  if newPaths.isEmpty then index
  else (index.filter fun f => !newPaths.contains f.path) ++ newFiles

/-- `scan_folder` as a state transformer: returns the content-stripped
returned batch, the updated DocumentTable and the updated watched set. -/
def scan_folder (rootPath : Str) (forceReindex : Bool) (index : List FileData)
    (watched : List Str) (disk : List DiskEntry) :
    List FileData × List FileData × List Str :=
  let newFiles := scanNewFiles forceReindex index disk
  let watched' := if watched.contains rootPath then watched else watched ++ [rootPath]
  let index' := scanMergedIndex index newFiles
  let lightweight := newFiles.map fun f => { f with content := [] }
  (lightweight, index', watched')

/-! ## Folder exclusion tree (`folders/tree.rs`) -/

/-- Folders are represented by their path components;
`FolderTreeBuilder::is_excluded` walks `Path::parent` which drops the last
component. -/
abbrev FolderPath := List String

/-- The ancestor loop of `is_excluded` over the reversed component list: it
tests every proper prefix of the path (down to the empty path, as
`Path::parent` does). -/
def ancestorChainRev (excluded : List FolderPath) : List String → Bool
  | [] => false
  | _ :: rest => excluded.contains rest.reverse || ancestorChainRev excluded rest

/-- `FolderTreeBuilder::is_excluded` from `folders/tree.rs`: direct
membership or any strict ancestor in the excluded set. -/
def is_excluded (excluded : List FolderPath) (p : FolderPath) : Bool :=
  excluded.contains p || ancestorChainRev excluded p.reverse

/-! ## Search history ledger (`search/history.rs`) -/

/-- `MAX_HISTORY_ENTRIES`. -/
def MAX_HISTORY_ENTRIES : Nat := 50

/-- `SearchHistoryEntry` from `models.rs`. -/
structure SearchHistoryEntry where
  query : Str
  timestamp : Int
  result_count : Nat
deriving DecidableEq, Repr

/-- `SearchHistory` (front of the list = most recent). -/
structure SearchHistory where
  entries : List SearchHistoryEntry
deriving DecidableEq, Repr

/-- `SearchHistory::add`; `now` models `Utc::now()`.  Blank queries are
ignored; any case-insensitively equal entry is removed, the fresh entry is
pushed to the front and the deque is trimmed from the back to
`MAX_HISTORY_ENTRIES`. -/
def SearchHistory.add (h : SearchHistory) (query : Str) (resultCount : Nat)
    (now : Int) : SearchHistory :=
  if trimStr query = [] then h
  else
    let retained := h.entries.filter fun e => !decide (toLower e.query = toLower query)
    let pushed : List SearchHistoryEntry :=
      { query := query, timestamp := now, result_count := resultCount } :: retained
    ⟨pushed.take MAX_HISTORY_ENTRIES⟩

/-! ## Folder removal (`commands/scanning.rs::remove_folder`) -/

/-- The shared state touched by `remove_folder`. -/
structure AppStateM where
  watched : List Str
  excluded : List Str
  index : List FileData
  history : SearchHistory
deriving Repr

/-- The prefix used by `remove_folder`: the path itself when it already ends
with the platform separator, otherwise the path with the separator
appended. -/
def removePrefix (sep : Char) (path : Str) : Str :=
  if endsWithChar path sep then path else path ++ [sep]

/-- `remove_folder` from `commands/scanning.rs` (`sep` is
`std::path::MAIN_SEPARATOR`). -/
def remove_folder (sep : Char) (path : Str) (st : AppStateM) : AppStateM :=
  let p := removePrefix sep path
  { watched := st.watched.filter fun q => !decide (q = path)
    excluded := st.excluded.filter fun q => !decide (q = path)
    index := st.index.filter fun f => !(p.isPrefixOf f.path) && !decide (f.path = path)
    history := st.history }

/-! ## Concrete scenario inputs for the claim theorems -/

/-- Document A of the spec's end-to-end AND scenario. -/
def c3docA : FileData :=
  { path := str "/docs/a.txt", name := str "a.txt", size := 31, last_modified := 0,
    file_type := str "text", content := str "the annual report covers budget" }

/-- Document B of the spec's end-to-end AND scenario. -/
def c3docB : FileData :=
  { path := str "/docs/b.txt", name := str "b.txt", size := 17, last_modified := 0,
    file_type := str "text", content := str "the annual report" }

/-- The AND scenario query. -/
def c3query : Str := str "\"annual report\" AND budget"

/-- First indexed document of the folder-removal scenario. -/
def c10doc1 : FileData := ⟨str "a/x", str "x", 1, 0, str "text", []⟩

/-- Second indexed document of the folder-removal scenario. -/
def c10doc2 : FileData := ⟨str "b/y", str "y", 1, 0, str "text", []⟩

/-- State holding both documents, with `a/` watched. -/
def c10state : AppStateM := ⟨[str "a/"], [], [c10doc1, c10doc2], ⟨[]⟩⟩

/-- A Tantivy hit located in the sibling folder `/docs/private2`. -/
def c8result : SearchResult :=
  ⟨⟨str "/docs/private2/file.txt", str "file.txt", 1, 0, str "text", []⟩,
   [⟨str "file", 0, str "c"⟩], 10⟩

/-- Environment where `/docs/private` is excluded and the only candidate
lives in `/docs/private2`. -/
def c8env : SearchEnv :=
  { fts5Available := false, fts5Rows := [], tantivy := .ok [c8result],
    files := [], excludedFolders := [str "/docs/private"], now := 0 }

/-- The disk entry of the extraction-failure scenario: a supported, non-empty
`txt` file whose extraction returns nothing. -/
def c4entry : DiskEntry := ⟨str "/d/f.txt", str "f.txt", some (str "txt"), 5, 10, none⟩

/-- FTS5 match rows of the pagination scenario: one row inside the excluded
folder `/x`, two rows outside it. -/
def c1rows : List FtsRow :=
  [⟨str "/x/a.txt", str "a.txt", str "text"⟩,
   ⟨str "/a.txt", str "a.txt", str "text"⟩,
   ⟨str "/b.txt", str "b.txt", str "text"⟩]

/-- Environment of the pagination scenario (FTS5 path). -/
def c1env : SearchEnv :=
  { fts5Available := true, fts5Rows := c1rows, tantivy := .ok [],
    files := [], excludedFolders := [str "/x"], now := 0 }

/-- Pagination parameters `offset = 1`, `limit = 1`. -/
def c1filters : SearchFilters := { max_results := some 1, offset := some 1 }

/-- The fully filtered candidate list over ALL FTS5 match rows (fetch window
3 covers every row, so nothing is truncated before exclusion). -/
def c1full : List SearchResult :=
  search_fts5 c1rows (str "q") 3 0 none [str "/x"] 0

/-- The search result produced for the row at `/a.txt`. -/
def c1resA : SearchResult :=
  ⟨⟨str "/a.txt", str "a.txt", 0, 0, str "text", []⟩,
   [⟨str "q", 0, str "Match found for 'q'"⟩], 10⟩

/-- The search result produced for the row at `/b.txt`. -/
def c1resB : SearchResult :=
  ⟨⟨str "/b.txt", str "b.txt", 0, 0, str "text", []⟩,
   [⟨str "q", 0, str "Match found for 'q'"⟩], 10⟩

/-- Pagination parameters `offset = 1`, `limit = 2` (no truncation bites). -/
def c1filtersW : SearchFilters := { max_results := some 2, offset := some 1 }

/-- Document with content mentioning both terms (fallback scenario). -/
def c2doc1 : FileData :=
  ⟨str "/docs/a.txt", str "a.txt", 31, 0, str "text",
   str "the annual report covers budget"⟩

/-- Second document of the fallback scenario. -/
def c2doc2 : FileData :=
  ⟨str "/docs/b.txt", str "b.txt", 17, 0, str "text", str "the annual report"⟩

/-- A Tantivy hit for the first document. -/
def c2tantivyRes : SearchResult := ⟨c2doc1, [⟨str "annual", 0, str "ctx"⟩], 15⟩

/-- Environment whose Tantivy call yields one result (below the threshold). -/
def c2env : SearchEnv :=
  { fts5Available := false, fts5Rows := [], tantivy := .ok [c2tantivyRes],
    files := [c2doc1, c2doc2], excludedFolders := [], now := 0 }

/-- Environment whose Tantivy call errors. -/
def c2envErr : SearchEnv :=
  { fts5Available := false, fts5Rows := [], tantivy := .error (str "tantivy failed"),
    files := [c2doc1, c2doc2], excludedFolders := [], now := 0 }

/-- A non-empty, lower-case, operator-free bare term: no whitespace, no
quote, not starting with `+`/`-`, and not (case-insensitively) one of the
keywords `AND`/`OR`/`NOT`. -/
structure PlainTerm (t : Str) : Prop where
  ne : t ≠ []
  nws : ∀ c ∈ t, isWS c = false
  nq : ∀ c ∈ t, c ≠ '"'
  nplus : startsWithChar t '+' = false
  nminus : startsWithChar t '-' = false
  nand : eqIgnoreAsciiCase t andTok = false
  nor : eqIgnoreAsciiCase t orTok = false
  nnot : eqIgnoreAsciiCase t notTok = false
  low : toLower t = t

/-- A post-merge processing stage `F` splits appends: on `m1 ++ m2` it
returns some sublist of `m1` followed by some sublist of `m2`. -/
def SplitsAppend {α : Type} (F : List α → List α) : Prop :=
  ∀ m1 m2 : List α, ∃ a b : List α,
    F (m1 ++ m2) = a ++ b ∧ a.Sublist m1 ∧ b.Sublist m2

/-! ## Supporting lemmas -/

theorem paginate_eq (l : List SearchResult) (offset maxResults : Nat) :
    paginate l offset maxResults = (l.drop offset).take maxResults := by
  unfold paginate
  by_cases h0 : 0 < offset
  · rw [if_pos h0]
  · rw [if_neg h0]
    have : offset = 0 := Nat.eq_zero_of_not_pos h0
    rw [this, List.drop_zero]

theorem splitsAppend_filter {α : Type} (p : α → Bool) :
    SplitsAppend fun l => l.filter p := fun m1 m2 =>
  ⟨m1.filter p, m2.filter p, List.filter_append m1 m2,
   List.filter_sublist m1, List.filter_sublist m2⟩

theorem splitsAppend_id {α : Type} : SplitsAppend fun l : List α => l :=
  fun m1 m2 => ⟨m1, m2, rfl, List.Sublist.refl m1, List.Sublist.refl m2⟩

theorem splitsAppend_ite {α : Type} (c : Bool) (p : α → Bool) :
    SplitsAppend fun l => if c then l.filter p else l := by
  cases c
  · simpa using splitsAppend_id
  · simpa using splitsAppend_filter p

theorem splitsAppend_drop {α : Type} (n : Nat) :
    SplitsAppend fun l : List α => l.drop n := fun m1 m2 =>
  ⟨m1.drop n, m2.drop (n - m1.length), List.drop_append_eq_append_drop,
   List.drop_sublist n m1, List.drop_sublist _ m2⟩

theorem splitsAppend_take {α : Type} (n : Nat) :
    SplitsAppend fun l : List α => l.take n := fun m1 m2 =>
  ⟨m1.take n, m2.take (n - m1.length), List.take_append_eq_append_take,
   List.take_sublist n m1, List.take_sublist _ m2⟩

theorem splitsAppend_comp {α : Type} {F G : List α → List α}
    (hF : SplitsAppend F) (hG : SplitsAppend G) : SplitsAppend fun l => F (G l) := by
  intro m1 m2
  obtain ⟨a, b, hab, ha, hb⟩ := hG m1 m2
  obtain ⟨a', b', hab', ha', hb'⟩ := hF a b
  refine ⟨a', b', ?_, ha'.trans ha, hb'.trans hb⟩
  show F (G (m1 ++ m2)) = a' ++ b'
  rw [hab, hab']

theorem sublist_of_splitsAppend {α : Type} {F : List α → List α}
    (hF : SplitsAppend F) (l : List α) : (F l).Sublist l := by
  obtain ⟨a, b, hab, ha, hb⟩ := hF l []
  rw [List.append_nil] at hab
  have hbnil : b = [] := List.sublist_nil.mp hb
  rw [hab, hbnil, List.append_nil]
  exact ha

theorem splitsAppend_paginate (offset maxResults : Nat) :
    SplitsAppend fun l : List SearchResult => paginate l offset maxResults := by
  have heq : (fun l : List SearchResult => paginate l offset maxResults) =
      fun l => (l.drop offset).take maxResults :=
    funext fun l => paginate_eq l offset maxResults
  rw [heq]
  exact splitsAppend_comp (splitsAppend_take maxResults) (splitsAppend_drop offset)

theorem splitsAppend_applyFiltersOpt (filters : Option SearchFilters) :
    SplitsAppend fun l => applyFiltersOpt l filters := by
  cases filters
  · exact splitsAppend_id
  · exact splitsAppend_filter _

theorem insertDesc_perm (r : SearchResult) (l : List SearchResult) :
    (insertDesc r l).Perm (r :: l) := by
  induction l with
  | nil => exact List.Perm.refl _
  | cons x xs ih =>
    unfold insertDesc
    by_cases h : x.score ≤ r.score
    · rw [if_pos h]
    · rw [if_neg h]
      exact (ih.cons x).trans (List.Perm.swap r x xs)

theorem sortByScoreDesc_perm (l : List SearchResult) : (sortByScoreDesc l).Perm l := by
  induction l with
  | nil => exact List.Perm.refl _
  | cons x xs ih => exact (insertDesc_perm x (sortByScoreDesc xs)).trans (ih.cons x)

theorem processFile_file (qc : Bool) (qn : Str) (pq : ParsedQuery) (f : FileData)
    (r : SearchResult) (h : processFile qc qn pq f = some r) : r.file = f := by
  unfold processFile at h
  dsimp only at h
  split_ifs at h <;> cases h <;> rfl

theorem searchLoop_paths_sublist (qc : Bool) (qn : Str) (pq : ParsedQuery) (m : Nat) :
    ∀ (fs : List FileData) (count : Nat),
      ((searchLoop qc qn pq m fs count).map fun r => r.file.path).Sublist
        (fs.map fun f => f.path) := by
  intro fs
  induction fs with
  | nil => intro count; simp [searchLoop]
  | cons f fs ih =>
    intro count
    unfold searchLoop
    by_cases hm : m ≤ count
    · rw [if_pos hm]
      simp
    · rw [if_neg hm]
      cases hpf : processFile qc qn pq f with
      | none =>
        exact (ih count).cons _
      | some r =>
        simp only [List.map_cons]
        rw [processFile_file qc qn pq f r hpf]
        exact (ih (count + 1)).cons₂ _

theorem direct_pipeline_paths_nodup (qc : Bool) (qn : Str) (pq : ParsedQuery)
    (m : Nat) (fs2 : List FileData) (h2 : (fs2.map fun f => f.path).Nodup) :
    (((sortByScoreDesc (searchLoop qc qn pq m fs2 0)).take m).map
      fun r => r.file.path).Nodup := by
  have h3 : ((searchLoop qc qn pq m fs2 0).map fun r => r.file.path).Nodup :=
    List.Nodup.sublist (searchLoop_paths_sublist qc qn pq m fs2 0) h2
  have h4 : ((sortByScoreDesc (searchLoop qc qn pq m fs2 0)).map
      fun r => r.file.path).Nodup :=
    ((sortByScoreDesc_perm (searchLoop qc qn pq m fs2 0)).map
      (fun r => r.file.path)).nodup_iff.mpr h3
  rw [List.map_take]
  exact List.Nodup.sublist (List.take_sublist m _) h4

theorem search_direct_content_paths_nodup (query : Str) (files : List FileData)
    (maxResults : Option Nat) (fpf : Option Str)
    (hF : (files.map fun f => f.path).Nodup) :
    ((search_direct_content query files maxResults fpf).map
      fun r => r.file.path).Nodup := by
  unfold search_direct_content
  dsimp only
  cases fpf with
  | none => exact direct_pipeline_paths_nodup _ _ _ _ files hF
  | some p =>
    exact direct_pipeline_paths_nodup _ _ _ _ _
      (List.Nodup.sublist ((List.filter_sublist files).map _) hF)

theorem mergeSupplement_eq (t d : List SearchResult) :
    mergeSupplement t d =
      t ++ d.filter fun dr => !(t.map fun r => r.file.path).contains dr.file.path := by
  unfold mergeSupplement
  by_cases hd : d.isEmpty = true
  · rw [if_pos hd]
    have hnil : d = [] := by
      cases d
      · rfl
      · cases hd
    rw [hnil]
    simp
  · rw [if_neg hd]

theorem mergeSupplement_paths_nodup (t d : List SearchResult)
    (hT : (t.map fun r => r.file.path).Nodup)
    (hD : (d.map fun r => r.file.path).Nodup) :
    ((mergeSupplement t d).map fun r => r.file.path).Nodup := by
  rw [mergeSupplement_eq, List.map_append]
  refine List.Nodup.append hT ?_ ?_
  · exact List.Nodup.sublist ((List.filter_sublist d).map _) hD
  · intro p hp hq
    obtain ⟨dr, hdr, hdrp⟩ := List.mem_map.mp hq
    have hc := (List.mem_filter.mp hdr).2
    rw [hdrp] at hc
    have hfalse : (t.map fun r => r.file.path).contains p = false := by
      simpa using hc
    simp only [List.contains] at hfalse
    rw [List.elem_eq_true_of_mem hp] at hfalse
    cases hfalse


theorem ancestorChainRev_append (excluded : List FolderPath) (r1 r2 : List String)
    (h2 : r2.reverse ∈ excluded) (h1 : r1 ≠ []) :
    ancestorChainRev excluded (r1 ++ r2) = true := by
  induction r1 with
  | nil => exact absurd rfl h1
  | cons c r1' ih =>
    have step : ancestorChainRev excluded ((c :: r1') ++ r2) =
        (excluded.contains (r1' ++ r2).reverse || ancestorChainRev excluded (r1' ++ r2)) :=
      rfl
    rw [step]
    cases r1' with
    | nil =>
      have hc : excluded.contains r2.reverse = true := by
        simpa using List.elem_iff.mpr h2
      simp only [List.nil_append]
      rw [hc, Bool.true_or]
    | cons d r1'' =>
      rw [ih (by simp), Bool.or_true]

/-! ## Claim theorems -/

/-- C7: for every folder `P` in the excluded set and every strict descendant
`C = P ++ s` (`s ≠ []`) in the path hierarchy, `is_excluded C` returns true,
even when `C` itself is not in the excluded set. -/
theorem C7_exclusion_inheritance (excluded : List FolderPath) (P s : FolderPath)
    (hP : P ∈ excluded) (hs : s ≠ []) :
    is_excluded excluded (P ++ s) = true := by
  unfold is_excluded
  have h : ancestorChainRev excluded (P ++ s).reverse = true := by
    rw [List.reverse_append]
    exact ancestorChainRev_append excluded s.reverse P.reverse
      (by simpa using hP) (by simpa using hs)
  rw [h, Bool.or_true]

/-- Witness for C7 at a concrete input: `docs/private` is excluded, and the
descendant `docs/private/sub` (never itself added) is reported excluded. -/
theorem C7_exclusion_inheritance_witness :
    is_excluded [["docs", "private"]] (["docs", "private"] ++ ["sub"]) = true :=
  C7_exclusion_inheritance [["docs", "private"]] ["docs", "private"] ["sub"]
    (by simp) (by simp)

/-- C3: the spec requires the direct-scan strategy on query
`"annual report" AND budget` over A (`"the annual report covers budget"`)
and B (`"the annual report"`) to return A and not B.  The boolean
matcher alone indeed accepts exactly A, but `search_direct_content`'s
substring pre-check demands the raw query string (quotes and `AND`
included) as a literal substring of name or content, so the strategy
returns no result at all — contradicting the documented operator support. -/
theorem C3_and_scenario_returns_nothing :
    search_direct_content c3query [c3docA, c3docB] (some 100) none = [] ∧
    matches_parsed_query (toLower (c3docA.name ++ ' ' :: c3docA.content))
      (parse_simple_query (toLower c3query)) = true ∧
    matches_parsed_query (toLower (c3docB.name ++ ' ' :: c3docB.content))
      (parse_simple_query (toLower c3query)) = false := by
  refine ⟨?_, ?_, ?_⟩ <;> decide

/-- C9: `SearchHistory::add` on a non-blank query leaves exactly one entry
whose query is case-insensitively equal to it, at the front, carrying the
latest result count and timestamp; the ledger is trimmed from the back to
50 entries; `add` of a blank query is a no-op. -/
theorem C9_history_dedup (h : SearchHistory) (q : Str) (c : Nat) (ts : Int)
    (hq : trimStr q ≠ []) :
    ((h.add q c ts).entries.head? = some ⟨q, ts, c⟩) ∧
    ((h.add q c ts).entries.filter fun e =>
        decide (toLower e.query = toLower q)).length = 1 ∧
    ((h.add q c ts).entries.length ≤ MAX_HISTORY_ENTRIES) ∧
    (∀ (h2 : SearchHistory) (q2 : Str) (c2 : Nat) (ts2 : Int),
      trimStr q2 = [] → h2.add q2 c2 ts2 = h2) := by
  have hadd : h.add q c ts =
      ⟨(({ query := q, timestamp := ts, result_count := c } :
          SearchHistoryEntry) ::
        h.entries.filter fun e => !decide (toLower e.query = toLower q)).take
          MAX_HISTORY_ENTRIES⟩ := by
    unfold SearchHistory.add
    rw [if_neg hq]
  refine ⟨?_, ?_, ?_, ?_⟩
  · rw [hadd]
    simp [MAX_HISTORY_ENTRIES, List.take_succ_cons]
  · rw [hadd]
    have hTake : ((({ query := q, timestamp := ts, result_count := c } :
        SearchHistoryEntry) ::
        h.entries.filter fun e => !decide (toLower e.query = toLower q)).take
          MAX_HISTORY_ENTRIES) =
        ({ query := q, timestamp := ts, result_count := c } :
          SearchHistoryEntry) ::
        ((h.entries.filter fun e => !decide (toLower e.query = toLower q)).take 49) := by
      simp [MAX_HISTORY_ENTRIES, List.take_succ_cons]
    rw [hTake]
    have hrest : (((h.entries.filter fun e =>
        !decide (toLower e.query = toLower q)).take 49).filter fun e =>
          decide (toLower e.query = toLower q)) = [] := by
      rw [List.filter_eq_nil_iff]
      intro e he
      have he2 : e ∈ h.entries.filter fun e => !decide (toLower e.query = toLower q) :=
        List.take_subset 49 _ he
      have := (List.mem_filter.mp he2).2
      simpa using this
    simp [hrest]
  · rw [hadd]
    exact List.length_take_le _ _
  · intro h2 q2 c2 ts2 hq2
    unfold SearchHistory.add
    rw [if_pos hq2]

/-- Witness for C9: adding `test` twice (count 10 then 15) around another
query leaves one `test` entry at the front with count 15. -/
theorem C9_history_dedup_witness :
    ((((⟨[]⟩ : SearchHistory).add (str "test") 10 1).add (str "other") 5 2).add
        (str "test") 15 3).entries.head? =
      some ⟨str "test", 3, 15⟩ :=
  (C9_history_dedup (((⟨[]⟩ : SearchHistory).add (str "test") 10 1).add
      (str "other") 5 2) (str "test") 15 3 (by decide)).1

/-- C10 counterexample: removing the folder path `a/` (which already ends
with the separator) deletes the entry `a/x`, although `a/x` neither equals
`a/` nor begins with `a/` followed by the separator (`a//`), contradicting
the claim's removal condition. -/
theorem C10_counterexample :
    (remove_folder '/' (str "a/") c10state).index = [c10doc2] ∧
    (str "a/" ++ ['/']).isPrefixOf c10doc1.path = false ∧
    c10doc1.path ≠ str "a/" := by
  refine ⟨?_, ?_, ?_⟩ <;> decide

/-- C10 (amended): `remove_folder p` removes from the document table exactly
the entries whose path equals `p` or begins with `p` terminated by the
platform separator (the separator is appended only when `p` does not already
end with it); every other table entry, the search history, and the
watched/excluded status of folders other than `p` are unchanged, while `p`
itself leaves both folder sets. -/
theorem C10_remove_folder_frame (sep : Char) (p : Str) (st : AppStateM) :
    ((remove_folder sep p st).history = st.history) ∧
    (p ∉ (remove_folder sep p st).watched) ∧
    (p ∉ (remove_folder sep p st).excluded) ∧
    (∀ f, f ∈ (remove_folder sep p st).index ↔
        (f ∈ st.index ∧ ¬((removePrefix sep p).isPrefixOf f.path = true) ∧
          f.path ≠ p)) ∧
    (∀ q, q ≠ p →
        ((q ∈ (remove_folder sep p st).watched ↔ q ∈ st.watched) ∧
         (q ∈ (remove_folder sep p st).excluded ↔ q ∈ st.excluded))) := by
  refine ⟨rfl, ?_, ?_, ?_, ?_⟩
  · simp [remove_folder, List.mem_filter]
  · simp [remove_folder, List.mem_filter]
  · intro f
    simp only [remove_folder, List.mem_filter, Bool.and_eq_true, Bool.not_eq_true',
      decide_eq_false_iff_not, and_assoc, Bool.not_eq_true, ne_eq]
  · intro q hqp
    constructor <;> simp [remove_folder, List.mem_filter, hqp]

/-- Witness for C10 at a concrete state: the unrelated folder `b` keeps its
watched status after removing `a`. -/
theorem C10_remove_folder_frame_witness :
    (str "b") ∈ (remove_folder '/' (str "a")
        ⟨[str "a", str "b"], [], [], ⟨[]⟩⟩).watched ↔
      (str "b") ∈ [str "a", str "b"] :=
  ((C10_remove_folder_frame '/' (str "a")
      ⟨[str "a", str "b"], [], [], ⟨[]⟩⟩).2.2.2.2 (str "b") (by decide)).1

/-- C8 counterexample: with `/docs/private` excluded, the coordinator
removes the result at `/docs/private2/file.txt` — yet
`/docs/private` + separator is not a prefix of that path, so under the
claim's separator-terminated prefix rule the sibling must survive. -/
theorem C8_counterexample :
    search_index c8env (str "file") none = .ok [] ∧
    (str "/docs/private" ++ ['/']).isPrefixOf (str "/docs/private2/file.txt") = false := by
  exact ⟨rfl, by decide⟩

/-- C8 (amended): the coordinator's folder-exclusion filtering removes a
result exactly when some excluded folder path is a plain string prefix of
the result's path (no separator termination); in particular a sibling
folder whose name merely extends an excluded path as a string is excluded
as well. -/
theorem C8_exclusion_prefix (excl : List Str) (results : List SearchResult)
    (r : SearchResult) :
    (r ∈ (results.filter fun x => !excludedByFolders excl x.file.path) ↔
      (r ∈ results ∧ ∀ e ∈ excl, e.isPrefixOf r.file.path = false)) ∧
    (excludedByFolders excl r.file.path = true ↔
      ∃ e ∈ excl, e.isPrefixOf r.file.path = true) := by
  constructor
  · rw [List.mem_filter]
    simp only [excludedByFolders, Bool.not_eq_true', List.any_eq_false,
      Bool.not_eq_true]
  · simp [excludedByFolders, List.any_eq_true]

/-- Witness for C8 at a concrete input: the sibling-path result is removed
because `/docs/private` is a plain string prefix of its path. -/
theorem C8_exclusion_prefix_witness :
    (c8result ∈ ([c8result].filter
        fun x => !excludedByFolders [str "/docs/private"] x.file.path) ↔
      (c8result ∈ [c8result] ∧
        ∀ e ∈ [str "/docs/private"], e.isPrefixOf c8result.file.path = false)) ∧
    (excludedByFolders [str "/docs/private"] c8result.file.path = true ↔
      ∃ e ∈ [str "/docs/private"], e.isPrefixOf c8result.file.path = true) :=
  C8_exclusion_prefix [str "/docs/private"] [c8result] c8result

/-! Scanner claim lemmas. -/

theorem get_file_type_eq_none_of_unsupported (y : Str)
    (h : is_supported_extension y = false) : get_file_type y = none := by
  unfold is_supported_extension SUPPORTED_EXTENSIONS at h
  unfold get_file_type
  split_ifs with h1 h2 h3 h4
  · rcases h1 with hd | hd <;>
      · rw [hd] at h
        exact absurd h (by decide)
  · rw [h2] at h
    exact absurd h (by decide)
  · rw [h3] at h
    exact absurd h (by decide)
  · rcases h4 with hd | hd <;>
      · rw [hd] at h
        exact absurd h (by decide)
  · rfl

theorem get_file_type_isSome_of_supported (y : Str)
    (h : is_supported_extension y = true) : (get_file_type y).isSome = true := by
  have hmem : toLower y ∈ SUPPORTED_EXTENSIONS := by
    have h2 := h
    unfold is_supported_extension at h2
    simpa using h2
  unfold SUPPORTED_EXTENSIONS at hmem
  simp only [List.mem_cons, List.not_mem_nil, or_false] at hmem
  rcases hmem with he | he | he | he | he | he <;>
    · unfold get_file_type
      rw [he]
      decide

theorem processEntry_eq_none_of_size_zero (force : Bool) (index : List FileData)
    (e : DiskEntry) (h : e.size = 0) : processEntry force index e = none := by
  cases hx : e.ext with
  | none => simp [processEntry, hx]
  | some x =>
    rcases hft : get_file_type (toLower x) with _ | ft <;>
      simp [processEntry, hx, hft, h]

theorem processEntry_eq_none_of_unsupported (force : Bool) (index : List FileData)
    (e : DiskEntry) (x : Str) (hx : e.ext = some x)
    (h : is_supported_extension (toLower x) = false) :
    processEntry force index e = none := by
  simp [processEntry, hx, get_file_type_eq_none_of_unsupported (toLower x) h]

theorem processEntry_ext_none (force : Bool) (index : List FileData) (e : DiskEntry)
    (hx : e.ext = none) : processEntry force index e = none := by
  simp [processEntry, hx]

theorem processEntry_eq_none_of_ft_none (force : Bool) (index : List FileData)
    (e : DiskEntry) (x : Str) (hx : e.ext = some x)
    (hft : get_file_type (toLower x) = none) : processEntry force index e = none := by
  simp [processEntry, hx, hft]

theorem processEntry_eq_of_ft_some (force : Bool) (index : List FileData)
    (e : DiskEntry) (x ft : Str) (hx : e.ext = some x)
    (hft : get_file_type (toLower x) = some ft) :
    processEntry force index e =
      (if e.size = 0 then none
       else if !force && lookupSizeMtime index e.path = some (e.size, e.mtime) then none
       else some { path := e.path, name := e.fileName, size := e.size,
                   last_modified := e.mtime, file_type := ft,
                   content := e.extraction.getD [] }) := by
  simp [processEntry, hx, hft]

theorem scanNewFiles_skip (force : Bool) (index : List FileData)
    (d1 d2 : List DiskEntry) (e : DiskEntry)
    (h : processEntry force index e = none ∨ discoveryKeep e = false) :
    scanNewFiles force index (d1 ++ e :: d2) = scanNewFiles force index (d1 ++ d2) := by
  cases hk : discoveryKeep e with
  | false =>
    simp [scanNewFiles, discovered, List.filter_append, List.filter_cons, hk]
  | true =>
    rcases h with h | h
    · simp [scanNewFiles, discovered, List.filter_append, List.filter_cons, hk,
        List.filterMap_append, List.filterMap_cons, h]
    · rw [h] at hk
      cases hk

/-- C4 counterexample: a visited file whose extraction fails (empty
extracted content) is NOT omitted — it enters the returned batch and the
document table, carrying empty content. -/
theorem C4_counterexample :
    c4entry.extraction = none ∧
    scanNewFiles false [] [c4entry] =
      [{ path := str "/d/f.txt", name := str "f.txt", size := 5, last_modified := 10,
         file_type := str "text", content := [] }] ∧
    scanMergedIndex [] (scanNewFiles false [] [c4entry]) ≠ [] := by
  refine ⟨rfl, by decide, by decide⟩

/-- C4 (amended): a visited file with zero size or an unsupported (or
missing) extension is omitted from the scan batch and leaves the document
table unaffected, with no error; a failed extraction, however, does not skip
the file — it is indexed with empty content. -/
theorem C4_skip_rules (force : Bool) (index : List FileData)
    (d1 d2 : List DiskEntry) (e : DiskEntry)
    (h : e.size = 0 ∨ e.ext = none ∨
      ∃ x, e.ext = some x ∧ is_supported_extension (toLower x) = false) :
    scanNewFiles force index (d1 ++ e :: d2) = scanNewFiles force index (d1 ++ d2) ∧
    scanMergedIndex index (scanNewFiles force index (d1 ++ e :: d2)) =
      scanMergedIndex index (scanNewFiles force index (d1 ++ d2)) ∧
    (∀ (e2 : DiskEntry) (r : FileData), e2.extraction = none →
        processEntry force index e2 = some r → r.content = []) := by
  have hskip : scanNewFiles force index (d1 ++ e :: d2) =
      scanNewFiles force index (d1 ++ d2) := by
    apply scanNewFiles_skip
    rcases h with h | h | ⟨x, hx, hunsupp⟩
    · exact Or.inl (processEntry_eq_none_of_size_zero force index e h)
    · right
      simp [discoveryKeep, h]
    · exact Or.inl (processEntry_eq_none_of_unsupported force index e x hx hunsupp)
  refine ⟨hskip, by rw [hskip], ?_⟩
  intro e2 r hnone hsome
  rcases hx : e2.ext with _ | x
  · rw [processEntry_ext_none force index e2 hx] at hsome
    cases hsome
  · rcases hft : get_file_type (toLower x) with _ | ft
    · rw [processEntry_eq_none_of_ft_none force index e2 x hx hft] at hsome
      cases hsome
    · rw [processEntry_eq_of_ft_some force index e2 x ft hx hft] at hsome
      split_ifs at hsome
      cases hsome
      simp [hnone]

/-- Witness for C4 at concrete inputs: a zero-size file between two good
files contributes nothing, and the concrete failed-extraction entry is
indexed with empty content. -/
theorem C4_skip_rules_witness :
    scanNewFiles false [] ([c4entry] ++
        (⟨str "/d/z.txt", str "z.txt", some (str "txt"), 0, 10, some (str "x")⟩ : DiskEntry) ::
        [c4entry]) =
      scanNewFiles false [] ([c4entry] ++ [c4entry]) :=
  (C4_skip_rules false [] [c4entry] [c4entry]
    ⟨str "/d/z.txt", str "z.txt", some (str "txt"), 0, 10, some (str "x")⟩
    (Or.inl rfl)).1

/-- C6: rescanning with `force_reindex = false` when every discovered file's
size and mtime agree with its document-table entry extracts nothing (every
processed entry yields a batch member, so an empty batch is exactly zero
extraction calls), returns an empty newly-indexed batch, and leaves the
document table unchanged (even pointwise equal, hence set-equal). -/
theorem C6_rescan_idempotent (index : List FileData) (watched : List Str)
    (disk : List DiskEntry) (root : Str)
    (h : ∀ e ∈ discovered disk, lookupSizeMtime index e.path = some (e.size, e.mtime)) :
    (scan_folder root false index watched disk).1 = [] ∧
    (scan_folder root false index watched disk).2.1 = index := by
  have hbatch : scanNewFiles false index disk = [] := by
    unfold scanNewFiles
    rw [List.filterMap_eq_nil_iff]
    intro e he
    have hkeep : discoveryKeep e = true := (List.mem_filter.mp he).2
    obtain ⟨x, hx, hsupp⟩ :
        ∃ x, e.ext = some x ∧ is_supported_extension (toLower x) = true := by
      rcases hex : e.ext with _ | x
      · unfold discoveryKeep at hkeep
        rw [hex] at hkeep
        simp at hkeep
      · refine ⟨x, rfl, ?_⟩
        unfold discoveryKeep at hkeep
        rw [hex] at hkeep
        simp at hkeep
        exact hkeep.2
    obtain ⟨ft, hft⟩ := Option.isSome_iff_exists.mp
      (get_file_type_isSome_of_supported (toLower x) hsupp)
    rcases hsz : e.size with _ | n
    · exact processEntry_eq_none_of_size_zero false index e hsz
    · rw [processEntry_eq_of_ft_some false index e x ft hx hft]
      have hlook := h e he
      simp [hsz, hlook]
  refine ⟨?_, ?_⟩
  · show (scanNewFiles false index disk).map _ = []
    rw [hbatch]
    rfl
  · show scanMergedIndex index (scanNewFiles false index disk) = index
    rw [hbatch]
    rfl

/-- C1 counterexample: with rows `/x/a.txt`, `/a.txt`, `/b.txt`, excluded
folder `/x`, `offset = 1`, `limit = 1`: the fully filtered candidate list has
size `N = 2` and `offset < N`, so the claim demands the non-empty slice
`full_results[1..2]` of length `min(1, 2 - 1) = 1` — but the call returns
`[]`, because the FTS5 fetch window `limit + offset = 2` is applied before
the folder-exclusion filter ever sees the third row. -/
theorem C1_counterexample :
    search_index c1env (str "q") (some c1filters) = .ok [] ∧
    applyFiltersOpt c1full (some c1filters) = [c1resA, c1resB] ∧
    ((applyFiltersOpt c1full (some c1filters)).drop 1).take 1 = [c1resB] := by
  refine ⟨rfl, by decide, by decide⟩

/-- C1 (amended): `search_index` applies offset/limit pagination only after
the folder-exclusion stage and the caller filters: the returned list is
exactly the slice `L[offset..offset+limit]` of the post-filter candidate
list `L`, of length `min(limit, |L| - offset)` when `offset < |L|`.
However, each strategy's candidate retrieval is already capped (at
`limit + offset` for FTS5 and the non-ASCII direct scan, `limit` for the
Tantivy supplement), so `L` may be a proper subset of the fully filtered
candidate set. -/
theorem C1_pagination_after_filters (env : SearchEnv) (query : Str)
    (filters : Option SearchFilters) (raw : List SearchResult)
    (hq : trimStr query ≠ [])
    (hcand : candidateResults env query (filePathOf filters) (maxResultsOf filters)
        (offsetOf filters) = .ok raw)
    (hoff : offsetOf filters < (applyFiltersOpt raw filters).length) :
    search_index env query filters =
      .ok (((applyFiltersOpt raw filters).drop (offsetOf filters)).take
        (maxResultsOf filters)) ∧
    (((applyFiltersOpt raw filters).drop (offsetOf filters)).take
        (maxResultsOf filters)).length =
      min (maxResultsOf filters) ((applyFiltersOpt raw filters).length -
        offsetOf filters) := by
  constructor
  · unfold search_index
    rw [if_neg hq, hcand]
    dsimp only
    rw [paginate_eq]
  · rw [List.length_take, List.length_drop]

/-- Witness for C1 at a concrete input where the fetch window covers every
row: `offset = 1 < 2 = |L|`, and the call returns exactly the slice. -/
theorem C1_pagination_after_filters_witness :
    search_index c1env (str "q") (some c1filtersW) =
      .ok (((applyFiltersOpt [c1resA, c1resB] (some c1filtersW)).drop
        (offsetOf (some c1filtersW))).take (maxResultsOf (some c1filtersW))) ∧
    (((applyFiltersOpt [c1resA, c1resB] (some c1filtersW)).drop
        (offsetOf (some c1filtersW))).take (maxResultsOf (some c1filtersW))).length =
      min (maxResultsOf (some c1filtersW))
        ((applyFiltersOpt [c1resA, c1resB] (some c1filtersW)).length -
          offsetOf (some c1filtersW)) :=
  C1_pagination_after_filters c1env (str "q") (some c1filtersW) [c1resA, c1resB]
    (by decide) rfl (by decide)

/-- Witness for C6: a one-file folder whose file is unchanged rescans to an
empty batch and an identical table. -/
theorem C6_rescan_idempotent_witness :
    (scan_folder (str "/d") false [⟨str "/d/f.txt", str "f.txt", 5, 10, str "text", str "hello"⟩]
        [str "/d"] [⟨str "/d/f.txt", str "f.txt", some (str "txt"), 5, 10, some (str "hello")⟩]).1 = [] ∧
    (scan_folder (str "/d") false [⟨str "/d/f.txt", str "f.txt", 5, 10, str "text", str "hello"⟩]
        [str "/d"] [⟨str "/d/f.txt", str "f.txt", some (str "txt"), 5, 10, some (str "hello")⟩]).2.1 =
      [⟨str "/d/f.txt", str "f.txt", 5, 10, str "text", str "hello"⟩] :=
  C6_rescan_idempotent [⟨str "/d/f.txt", str "f.txt", 5, 10, str "text", str "hello"⟩]
    [str "/d"] [⟨str "/d/f.txt", str "f.txt", some (str "txt"), 5, 10, some (str "hello")⟩]
    (str "/d") (by decide)

theorem candidateResults_supplement (env : SearchEnv) (query : Str)
    (maxResults offset : Nat) (tres : List SearchResult)
    (h1 : env.fts5Available = false)
    (h2 : (query.any fun c => !isAsciiChar c) = false)
    (htan : env.tantivy = .ok tres)
    (hlen : tres.length < MIN_TANTIVY_RESULTS) :
    candidateResults env query none maxResults offset =
      .ok (if !env.excludedFolders.isEmpty then
            (mergeSupplement tres
              (search_direct_content query env.files (some maxResults) none)).filter
              fun r => !excludedByFolders env.excludedFolders r.file.path
          else mergeSupplement tres
            (search_direct_content query env.files (some maxResults) none)) := by
  by_cases hexcl : env.excludedFolders.isEmpty = true
  · simp [candidateResults, h1, h2, htan, hlen, hexcl]
  · simp [candidateResults, h1, h2, htan, hlen, hexcl]

/-- C2 counterexample: when the index-store (Tantivy) strategy errors, the
coordinator does not supplement with direct-scan results — the whole call
fails with the error, even though the direct scan would have found
results. -/
theorem C2_counterexample :
    search_index c2envErr (str "report") none = .error (str "tantivy failed") ∧
    search_direct_content (str "report") c2envErr.files (some 100) none ≠ [] := by
  refine ⟨rfl, by decide⟩

/-- C2 (amended): for every non-empty, non-single-file-scoped ASCII query
whose Tantivy call succeeds but yields fewer than 5 candidates (an
unavailable store surfaces as zero candidates), the coordinator appends
direct-scan results to the index-store results, merging by document path
with index-store precedence: given per-source path uniqueness the final
list has pairwise distinct paths and consists of surviving index-store
results followed by surviving appended direct-scan results.  A Tantivy
error, by contrast, aborts the call. -/
theorem C2_supplement_dedup (env : SearchEnv) (query : Str)
    (filters : Option SearchFilters) (tres : List SearchResult)
    (hfts : env.fts5Available = false)
    (htan : env.tantivy = .ok tres)
    (hlen : tres.length < MIN_TANTIVY_RESULTS)
    (hq : trimStr query ≠ [])
    (hascii : (query.any fun c => !isAsciiChar c) = false)
    (hfpf : filePathOf filters = none)
    (hT : (tres.map fun r => r.file.path).Nodup)
    (hF : (env.files.map fun f => f.path).Nodup) :
    ∃ res, search_index env query filters = .ok res ∧
      (res.map fun r => r.file.path).Nodup ∧
      ∃ a b, res = a ++ b ∧ a.Sublist tres ∧
        b.Sublist (search_direct_content query env.files
          (some (maxResultsOf filters)) none) := by
  have hcand := candidateResults_supplement env query (maxResultsOf filters)
    (offsetOf filters) tres hfts hascii htan hlen
  set direct := search_direct_content query env.files (some (maxResultsOf filters)) none
    with hdirect
  set merged := mergeSupplement tres direct with hmerged
  -- the post-merge pipeline applied by the coordinator
  set F : List SearchResult → List SearchResult := fun l =>
    paginate (applyFiltersOpt
      (if !env.excludedFolders.isEmpty then
        l.filter fun r => !excludedByFolders env.excludedFolders r.file.path
      else l) filters) (offsetOf filters) (maxResultsOf filters) with hFdef
  have hsearch : search_index env query filters = .ok (F merged) := by
    unfold search_index
    rw [if_neg hq, hfpf, hcand]
  have hstep1 : SplitsAppend fun l : List SearchResult =>
      applyFiltersOpt (if !env.excludedFolders.isEmpty then
        l.filter fun r => !excludedByFolders env.excludedFolders r.file.path
      else l) filters :=
    @splitsAppend_comp SearchResult (fun l => applyFiltersOpt l filters)
      (fun l => if !env.excludedFolders.isEmpty then
        l.filter fun r => !excludedByFolders env.excludedFolders r.file.path
      else l)
      (splitsAppend_applyFiltersOpt filters)
      (splitsAppend_ite (!env.excludedFolders.isEmpty)
        (fun r => !excludedByFolders env.excludedFolders r.file.path))
  have hsplits : SplitsAppend F := by
    rw [hFdef]
    exact @splitsAppend_comp SearchResult
      (fun l => paginate l (offsetOf filters) (maxResultsOf filters))
      (fun l => applyFiltersOpt (if !env.excludedFolders.isEmpty then
        l.filter fun r => !excludedByFolders env.excludedFolders r.file.path
      else l) filters)
      (splitsAppend_paginate (offsetOf filters) (maxResultsOf filters)) hstep1
  have hDnodup : (direct.map fun r => r.file.path).Nodup :=
    search_direct_content_paths_nodup query env.files (some (maxResultsOf filters))
      none hF
  have hMnodup : (merged.map fun r => r.file.path).Nodup :=
    mergeSupplement_paths_nodup tres direct hT hDnodup
  have hsub : (F merged).Sublist merged := sublist_of_splitsAppend hsplits merged
  refine ⟨F merged, hsearch, ?_, ?_⟩
  · exact List.Nodup.sublist (hsub.map _) hMnodup
  · have hm2 : merged = tres ++ direct.filter
        fun dr => !(tres.map fun r => r.file.path).contains dr.file.path :=
      mergeSupplement_eq tres direct
    obtain ⟨a, b, hab, ha, hb⟩ := hsplits tres
      (direct.filter fun dr => !(tres.map fun r => r.file.path).contains dr.file.path)
    refine ⟨a, b, ?_, ha, hb.trans (List.filter_sublist direct)⟩
    rw [hm2]
    exact hab

theorem phrasePass_noquote (s : Str) (h : ∀ c ∈ s, c ≠ '"') :
    phrasePass s none = ([], s) := by
  induction s with
  | nil => rfl
  | cons c rest ih =>
    have hc : c ≠ '"' := h c (List.mem_cons_self c rest)
    have ih2 := ih fun d hd => h d (List.mem_cons_of_mem c hd)
    simp [phrasePass, hc, ih2]

theorem phrasePass_pending (s : Str) (h : ∀ c ∈ s, c ≠ '"') :
    ∀ (u : Str) (pend : Str),
      phrasePass (s ++ u) (some pend) = phrasePass u (some (s.reverse ++ pend)) := by
  induction s with
  | nil => intro u pend; simp
  | cons c rest ih =>
    intro u pend
    have hc : c ≠ '"' := h c (List.mem_cons_self c rest)
    have ih2 := ih (fun d hd => h d (List.mem_cons_of_mem c hd)) u (c :: pend)
    simp only [List.cons_append, phrasePass, if_neg hc, List.reverse_cons,
      List.append_assoc, List.singleton_append, List.nil_append]
    exact ih2

theorem splitWSAux_nows_append (s : Str) (h : ∀ c ∈ s, isWS c = false) :
    ∀ (t : Str) (cur : Str),
      splitWSAux (s ++ t) cur = splitWSAux t (s.reverse ++ cur) := by
  induction s with
  | nil => intro t cur; simp
  | cons c rest ih =>
    intro t cur
    have hc : isWS c = false := h c (List.mem_cons_self c rest)
    have ih2 := ih (fun d hd => h d (List.mem_cons_of_mem c hd)) t (c :: cur)
    simp only [List.cons_append, splitWSAux, hc, Bool.false_eq_true, if_false,
      List.reverse_cons, List.append_assoc, List.singleton_append,
      List.nil_append]
    exact ih2

theorem splitWS_single (s : Str) (hne : s ≠ []) (hnw : ∀ c ∈ s, isWS c = false) :
    splitWS s = [s] := by
  unfold splitWS
  have h := splitWSAux_nows_append s hnw [] []
  rw [List.append_nil, List.append_nil] at h
  rw [h]
  unfold splitWSAux
  rw [if_neg (by simpa using hne)]
  simp

theorem splitWSAux_space (rest cur : Str) :
    splitWSAux (' ' :: rest) cur =
      if cur = [] then splitWSAux rest []
      else cur.reverse :: splitWSAux rest [] := by
  show (if isWS ' ' = true then
      if cur = [] then splitWSAux rest [] else cur.reverse :: splitWSAux rest []
    else splitWSAux rest (' ' :: cur)) = _
  rw [if_pos (by decide)]

theorem splitWS_cons_token (a : Str) (rest : Str) (hne : a ≠ [])
    (hnw : ∀ c ∈ a, isWS c = false) :
    splitWS (a ++ ' ' :: rest) = a :: splitWS rest := by
  unfold splitWS
  have h := splitWSAux_nows_append a hnw (' ' :: rest) []
  rw [List.append_nil] at h
  rw [h, splitWSAux_space, if_neg (by simpa using hne)]
  simp

theorem matches_single_required (text p : Str) :
    matches_parsed_query text ⟨[p], [], [], []⟩ = containsStr text p := by
  by_cases h : containsStr text p = true
  · simp [matches_parsed_query, h]
  · have h' : containsStr text p = false := by
      revert h; cases containsStr text p <;> simp
    simp [matches_parsed_query, h']

theorem matches_two_required (text p q : Str) :
    matches_parsed_query text ⟨[p, q], [], [], []⟩ =
      (containsStr text p && containsStr text q) := by
  by_cases hp : containsStr text p = true <;>
    by_cases hq : containsStr text q = true
  · simp [matches_parsed_query, hp, hq]
  · have hq' : containsStr text q = false := by
      revert hq; cases containsStr text q <;> simp
    simp [matches_parsed_query, hp, hq']
  · have hp' : containsStr text p = false := by
      revert hp; cases containsStr text p <;> simp
    simp [matches_parsed_query, hp']
  · have hp' : containsStr text p = false := by
      revert hp; cases containsStr text p <;> simp
    simp [matches_parsed_query, hp']

theorem matches_optional_excluded (text p q : Str) :
    matches_parsed_query text ⟨[], [p], [q], []⟩ =
      (containsStr text p && !containsStr text q) := by
  by_cases hq : containsStr text q = true
  · simp [matches_parsed_query, hq]
  · have hq' : containsStr text q = false := by
      revert hq; cases containsStr text q <;> simp
    by_cases hp : containsStr text p = true
    · simp [matches_parsed_query, hp, hq']
    · have hp' : containsStr text p = false := by
        revert hp; cases containsStr text p <;> simp
      simp [matches_parsed_query, hp', hq']

theorem matches_phrase_required (text p : Str) :
    matches_parsed_query text ⟨[p], [], [], [p]⟩ = containsStr text p := by
  by_cases h : containsStr text p = true
  · simp [matches_parsed_query, h]
  · have h' : containsStr text p = false := by
      revert h; cases containsStr text p <;> simp
    simp [matches_parsed_query, h']

theorem parseLoop_plain_token (t : Str) (rest : List Str) (st : ParseState)
    (h1 : eqIgnoreAsciiCase t andTok = false)
    (h2 : eqIgnoreAsciiCase t orTok = false)
    (h3 : eqIgnoreAsciiCase t notTok = false)
    (h4 : startsWithChar t '-' = false)
    (h5 : startsWithChar t '+' = false) :
    parseLoop (t :: rest) st = parseLoop rest (pushOptional st t) := by
  rw [parseLoop.eq_def]
  dsimp only
  rw [h1, h2, h3, h4, h5]
  simp

theorem parseLoop_and_token (rest : List Str) (st : ParseState) :
    parseLoop (andTok :: rest) st = parseLoop rest { st with hasAnd := true } := by
  rw [parseLoop.eq_def]
  dsimp only
  rw [show eqIgnoreAsciiCase andTok andTok = true from by decide]
  simp

theorem parse_simple_query_eq (q : Str) (ph : List Str) (rem : Str)
    (h : extractPhrases q = (ph, rem)) :
    parse_simple_query q =
      { required_terms := (if (parseLoop (splitWS rem) ⟨[], [], [], false⟩).hasAnd
          then (parseLoop (splitWS rem) ⟨[], [], [], false⟩).required ++
            (parseLoop (splitWS rem) ⟨[], [], [], false⟩).optional
          else (parseLoop (splitWS rem) ⟨[], [], [], false⟩).required) ++ ph
        optional_terms := if (parseLoop (splitWS rem) ⟨[], [], [], false⟩).hasAnd
          then [] else (parseLoop (splitWS rem) ⟨[], [], [], false⟩).optional
        excluded_terms := (parseLoop (splitWS rem) ⟨[], [], [], false⟩).excluded
        exact_phrases := ph } := by
  unfold parse_simple_query
  rw [h]

theorem extractPhrases_quoted (content : Str) (hc : ∀ c ∈ content, c ≠ '"')
    (hne : content ≠ []) :
    extractPhrases ('"' :: (content ++ ['"'])) = ([toLower content], [' ']) := by
  unfold extractPhrases
  have step1 : phrasePass ('"' :: (content ++ ['"'])) none =
      phrasePass (content ++ ['"']) (some []) := rfl
  rw [step1, phrasePass_pending content hc ['"'] [], List.append_nil,
    phrasePass.eq_def]
  dsimp only
  rw [if_pos rfl, if_neg (by simpa using hne)]
  rw [List.reverse_reverse]
  rfl

theorem toLower_append_space (a b : Str) (ha : toLower a = a) (hb : toLower b = b) :
    toLower (a ++ (' ' :: b)) = a ++ (' ' :: b) := by
  have ha' := ha
  have hb' := hb
  unfold toLower at ha' hb' ⊢
  rw [List.map_append, List.map_cons, ha', hb']
  rfl

/-- Witness for C2: a single below-threshold Tantivy hit over a two-document
table is supplemented without duplicate paths. -/
theorem C2_supplement_dedup_witness :
    ∃ res, search_index c2env (str "annual") none = .ok res ∧
      (res.map fun r => r.file.path).Nodup ∧
      ∃ a b, res = a ++ b ∧ a.Sublist [c2tantivyRes] ∧
        b.Sublist (search_direct_content (str "annual") c2env.files
          (some (maxResultsOf none)) none) :=
  C2_supplement_dedup c2env (str "annual") none [c2tantivyRes] rfl rfl
    (by decide) (by decide) (by decide) rfl (by decide) (by decide)

/-- C5: the boolean matching laws of `parse_simple_query` /
`matches_parsed_query` for lowercase text and non-empty lowercase
operator-free terms: `+term` matches iff the text contains the term;
`a AND b` iff it contains both; `a -b` iff it contains `a` but not `b`;
`"a b"` iff it contains the exact phrase `a b`. -/
theorem C5_boolean_laws (text term a b : Str)
    (htext : toLower text = text)
    (ht : PlainTerm term) (ha : PlainTerm a) (hb : PlainTerm b) :
    (matches_parsed_query text (parse_simple_query ('+' :: term)) =
      containsStr text term) ∧
    (matches_parsed_query text
        (parse_simple_query (a ++ (' ' :: (andTok ++ (' ' :: b))))) =
      (containsStr text a && containsStr text b)) ∧
    (matches_parsed_query text (parse_simple_query (a ++ (' ' :: ('-' :: b)))) =
      (containsStr text a && !containsStr text b)) ∧
    (matches_parsed_query text
        (parse_simple_query ('"' :: ((a ++ (' ' :: b)) ++ ['"']))) =
      containsStr text (a ++ (' ' :: b))) := by
  refine ⟨?_, ?_, ?_, ?_⟩
  · -- law 1: `+term`
    have hph1 : extractPhrases ('+' :: term) = ([], '+' :: term) :=
      phrasePass_noquote _ (List.forall_mem_cons.mpr ⟨by decide, ht.nq⟩)
    have hsp1 : splitWS ('+' :: term) = ['+' :: term] :=
      splitWS_single _ (by simp) (List.forall_mem_cons.mpr ⟨by decide, ht.nws⟩)
    have hloop1 : parseLoop ['+' :: term] ⟨[], [], [], false⟩ =
        pushRequired ⟨[], [], [], false⟩ term := rfl
    have hpush1 : pushRequired ⟨[], [], [], false⟩ term =
        ⟨[toLower term], [], [], false⟩ := by
      unfold pushRequired
      rw [if_neg ht.ne]
      rfl
    have hparse1 : parse_simple_query ('+' :: term) = ⟨[term], [], [], []⟩ := by
      rw [parse_simple_query_eq _ _ _ hph1, hsp1, hloop1, hpush1, ht.low]
      rfl
    rw [hparse1, matches_single_required]
  · -- law 2: `a AND b`
    have hph2 : extractPhrases (a ++ (' ' :: (andTok ++ (' ' :: b)))) =
        ([], a ++ (' ' :: (andTok ++ (' ' :: b)))) :=
      phrasePass_noquote _ (List.forall_mem_append.mpr ⟨ha.nq,
        List.forall_mem_cons.mpr ⟨by decide, List.forall_mem_append.mpr
          ⟨by decide, List.forall_mem_cons.mpr ⟨by decide, hb.nq⟩⟩⟩⟩)
    have hsp2 : splitWS (a ++ (' ' :: (andTok ++ (' ' :: b)))) =
        [a, andTok, b] := by
      rw [splitWS_cons_token a _ ha.ne ha.nws,
        splitWS_cons_token andTok _ (by decide) (by decide),
        splitWS_single b hb.ne hb.nws]
    have hloop2 : parseLoop [a, andTok, b] ⟨[], [], [], false⟩ =
        ⟨[], [toLower a, toLower b], [], true⟩ := by
      rw [parseLoop_plain_token a _ _ ha.nand ha.nor ha.nnot ha.nminus ha.nplus,
        parseLoop_and_token,
        parseLoop_plain_token b _ _ hb.nand hb.nor hb.nnot hb.nminus hb.nplus]
      rfl
    have hparse2 : parse_simple_query (a ++ (' ' :: (andTok ++ (' ' :: b)))) =
        ⟨[a, b], [], [], []⟩ := by
      rw [parse_simple_query_eq _ _ _ hph2, hsp2, hloop2, ha.low, hb.low]
      rfl
    rw [hparse2, matches_two_required]
  · -- law 3: `a -b`
    have hph3 : extractPhrases (a ++ (' ' :: ('-' :: b))) =
        ([], a ++ (' ' :: ('-' :: b))) :=
      phrasePass_noquote _ (List.forall_mem_append.mpr ⟨ha.nq,
        List.forall_mem_cons.mpr ⟨by decide,
          List.forall_mem_cons.mpr ⟨by decide, hb.nq⟩⟩⟩)
    have hsp3 : splitWS (a ++ (' ' :: ('-' :: b))) = [a, '-' :: b] := by
      rw [splitWS_cons_token a _ ha.ne ha.nws,
        splitWS_single ('-' :: b) (by simp)
          (List.forall_mem_cons.mpr ⟨by decide, hb.nws⟩)]
    have hloop3 : parseLoop [a, '-' :: b] ⟨[], [], [], false⟩ =
        ⟨[], [toLower a], [toLower b], false⟩ := by
      rw [parseLoop_plain_token a _ _ ha.nand ha.nor ha.nnot ha.nminus ha.nplus]
      have hstep : parseLoop ['-' :: b] (pushOptional ⟨[], [], [], false⟩ a) =
          pushExcluded (pushOptional ⟨[], [], [], false⟩ a) b := rfl
      rw [hstep]
      unfold pushExcluded
      rw [if_neg hb.ne]
      rfl
    have hparse3 : parse_simple_query (a ++ (' ' :: ('-' :: b))) =
        ⟨[], [a], [b], []⟩ := by
      rw [parse_simple_query_eq _ _ _ hph3, hsp3, hloop3, ha.low, hb.low]
      rfl
    rw [hparse3, matches_optional_excluded]
  · -- law 4: `"a b"`
    have hcontent : ∀ c ∈ a ++ (' ' :: b), c ≠ '"' :=
      List.forall_mem_append.mpr ⟨ha.nq,
        List.forall_mem_cons.mpr ⟨by decide, hb.nq⟩⟩
    have hph4 : extractPhrases ('"' :: ((a ++ (' ' :: b)) ++ ['"'])) =
        ([toLower (a ++ (' ' :: b))], [' ']) :=
      extractPhrases_quoted _ hcontent (by simp)
    have hlowc : toLower (a ++ (' ' :: b)) = a ++ (' ' :: b) :=
      toLower_append_space a b ha.low hb.low
    rw [hlowc] at hph4
    have hparse4 : parse_simple_query ('"' :: ((a ++ (' ' :: b)) ++ ['"'])) =
        ⟨[a ++ (' ' :: b)], [], [], [a ++ (' ' :: b)]⟩ := by
      rw [parse_simple_query_eq _ _ _ hph4]
      rfl
    rw [hparse4, matches_phrase_required]

/-- Witness for C5 at concrete inputs: text
`"x annual report budget"` with terms `report`, `annual`, `budget`. -/
theorem C5_boolean_laws_witness :
    (matches_parsed_query (str "x annual report budget")
        (parse_simple_query ('+' :: str "report")) =
      containsStr (str "x annual report budget") (str "report")) ∧
    (matches_parsed_query (str "x annual report budget")
        (parse_simple_query (str "annual" ++ (' ' :: (andTok ++ (' ' :: str "budget"))))) =
      (containsStr (str "x annual report budget") (str "annual") &&
        containsStr (str "x annual report budget") (str "budget"))) ∧
    (matches_parsed_query (str "x annual report budget")
        (parse_simple_query (str "annual" ++ (' ' :: ('-' :: str "budget")))) =
      (containsStr (str "x annual report budget") (str "annual") &&
        !containsStr (str "x annual report budget") (str "budget"))) ∧
    (matches_parsed_query (str "x annual report budget")
        (parse_simple_query ('"' :: ((str "annual" ++ (' ' :: str "budget")) ++ ['"']))) =
      containsStr (str "x annual report budget")
        (str "annual" ++ (' ' :: str "budget"))) :=
  C5_boolean_laws (str "x annual report budget") (str "report") (str "annual")
    (str "budget") (by decide)
    ⟨by decide, by decide, by decide, by decide, by decide, by decide, by decide,
      by decide, by decide⟩
    ⟨by decide, by decide, by decide, by decide, by decide, by decide, by decide,
      by decide, by decide⟩
    ⟨by decide, by decide, by decide, by decide, by decide, by decide, by decide,
      by decide, by decide⟩

end Docufind
